import Mathlib

/-!
Shallow embedding of the WebMail IMAP client core
(`modules/imap_client.py`) together with proofs about it.

Python strings are embedded as `List Char`; Python functions become
computable Lean functions; the network (the `imaplib` transport) becomes
an explicit environment record, and each method returns, besides its
result, the list of protocol operations it issued.
-/

namespace WebMail

/-- Python strings are embedded as lists of characters. -/
abbrev Str := List Char

/-! ## Python string primitives used by the client -/

/-- `str.split(sep)` for a one-character separator, Python semantics:
`"".split("@") = [""]`, `"a@@b".split("@") = ["a","","b"]`. -/
def pySplit (sep : Char) : Str → List Str
  | [] => [[]]
  | c :: cs =>
    match pySplit sep cs with
    | [] => [[]]
    | r :: rs => if c = sep then [] :: r :: rs else (c :: r) :: rs

/-- `str.strip()`: drop whitespace from both ends. -/
def pyStrip (s : Str) : Str :=
  ((s.dropWhile Char.isWhitespace).reverse.dropWhile Char.isWhitespace).reverse

/-- `str.lower()` (ASCII case folding suffices for the hostname domains used here). -/
def pyLower (s : Str) : Str := s.map Char.toLower

/-! ## Candidate hosts (`IMAPClient._candidate_hosts`) -/

/-- Modelled from the spec: the table `IMAP_SERVERS` lives in
`modules/imap_config.py`, which is absent from the sources; the spec
describes it as "a read-only mapping from lowercase domain string to a
single host identifier", so it is modelled as an abstract mapping of this
type, a parameter of every definition that consults it. -/
def ServerMap : Type := Str → Option Str

/-- The fallback pair from `_candidate_hosts` (order is significant). -/
def defaultHosts : List Str :=
  ["imap.firstmail.ltd".toList, "imap.notletters.com".toList]

/-- The lookup key computed by `_candidate_hosts`:
`self.email.split("@")[-1].strip().lower()`. -/
def usedDomain (email_addr : Str) : Str :=
  pyLower (pyStrip (((pySplit '@' email_addr).getLast?).getD []))

/-- `IMAPClient._candidate_hosts`.  Note the Python truthiness test
`if host:` — a domain mapped to the empty string behaves like an
unmapped domain. -/
def candidate_hosts (servers : ServerMap) (email_addr : Str) : List Str :=
  let domain := usedDomain email_addr
  match servers domain with
  | some host => if host = [] then defaultHosts else [host]
  | none => defaultHosts

/-! ### Lemmas about `pySplit` -/

theorem pySplit_ne_nil (sep : Char) (l : Str) : pySplit sep l ≠ [] := by
  cases l with
  | nil => simp [pySplit]
  | cons c cs =>
    simp only [pySplit]
    cases pySplit sep cs with
    | nil => simp
    | cons r rs =>
      by_cases h : c = sep <;> simp [h]

theorem pySplit_of_not_mem (sep : Char) (l : Str) (h : sep ∉ l) :
    pySplit sep l = [l] := by
  induction l with
  | nil => rfl
  | cons c cs ih =>
    have hc : c ≠ sep := fun hcs => h (by simp [hcs])
    have hcs' : sep ∉ cs := fun hm => h (List.mem_cons_of_mem _ hm)
    simp [pySplit, ih hcs', hc]

theorem pySplit_length_two_le (sep : Char) (l : Str) (h : sep ∈ l) :
    2 ≤ (pySplit sep l).length := by
  induction l with
  | nil => simp at h
  | cons c cs ih =>
    simp only [pySplit]
    rcases List.mem_cons.mp h with hc | hmem
    · cases hr : pySplit sep cs with
      | nil => exact absurd hr (pySplit_ne_nil sep cs)
      | cons r rs => simp [hc]
    · have h2 := ih hmem
      cases hr : pySplit sep cs with
      | nil => exact absurd hr (pySplit_ne_nil sep cs)
      | cons r rs =>
        rw [hr] at h2
        by_cases hc : c = sep <;> simp [hc] <;> simpa using h2

theorem pySplit_getLast?_append (sep : Char) (a d : Str) :
    (pySplit sep (a ++ sep :: d)).getLast? = (pySplit sep d).getLast? := by
  induction a with
  | nil =>
    simp only [List.nil_append, pySplit]
    cases hr : pySplit sep d with
    | nil => exact absurd hr (pySplit_ne_nil sep d)
    | cons r rs => simp [List.getLast?_cons_cons]
  | cons c a ih =>
    simp only [List.cons_append, pySplit]
    cases hr : pySplit sep (a ++ sep :: d) with
    | nil => exact absurd hr (pySplit_ne_nil sep (a ++ sep :: d))
    | cons r rs =>
      have hlen : 2 ≤ (pySplit sep (a ++ sep :: d)).length :=
        pySplit_length_two_le sep _ (by simp)
      rw [hr] at hlen
      cases rs with
      | nil => simp at hlen
      | cons r2 rs2 =>
        rw [hr] at ih
        by_cases hc : c = sep <;>
          simp [hc, List.getLast?_cons_cons] <;>
          simpa [List.getLast?_cons_cons] using ih

/-! ## Message decoding (the MessageDecoder half of the core) -/

/-- Content type of a MIME part, as classified by `get_content_type()` /
`get_content_maintype()` in `_extract_bodies`. -/
inductive PartType
  | plain
  | html
  | multipartContainer
  | other (t : Str)
deriving DecidableEq

/-- One element of `msg.walk()`: its content type, whether its
`Content-Disposition` header marks it as an attachment, and its payload
decoded to text.  Charset decoding in the source is total (it decodes
with `errors="replace"`, falling back to UTF-8 on a bad charset), so the
decoded text is carried directly. -/
structure WalkPart where
  ptype : PartType
  isAttachment : Bool
  text : Str
deriving DecidableEq

/-- The body structure of a parsed message: the `msg.is_multipart()`
branch of `_extract_bodies`.  A multipart message is carried as the
flattened `walk()` order of its parts. -/
inductive MsgBody
  | single (ptype : PartType) (text : Str)
  | multi (parts : List WalkPart)
deriving DecidableEq

/-- A parsed message (`email.message_from_bytes` result), reduced to the
fields `get_messages` reads: the five headers and the body structure.
`none` models a missing header (`msg.get(...)` returning `None`). -/
structure RawMsg where
  subjectH : Option Str
  fromH : Option Str
  toH : Option Str
  dateH : Option Str
  messageIdH : Option Str
  body : MsgBody
deriving DecidableEq

/-- The normalized record appended to the result list of `get_messages`. -/
structure MessageRecord where
  subject : Str
  fromA : Str
  toA : Str
  date : Str
  message_id : Str
  body_text : Str
  body_html : Str
deriving DecidableEq

/-- `IMAPClient._decode_maybe_encoded`.  The stdlib pair
`decode_header`/`make_header` is modelled by the parameter `hdrDecode`:
`some d` is a successful decode to `d`, `none` is a raised exception,
which the source swallows by returning the raw value. -/
def decode_maybe_encoded (hdrDecode : Str → Option Str) (value : Option Str) : Str :=
  match value with
  | none => []
  | some v =>
    match hdrDecode v with
    | some d => d
    | none => v

/-- The newline used by `"\n".join(...)`. -/
def nlChar : Char := Char.ofNat 10

/-- `"\n".join(parts)`. -/
def joinNL (parts : List Str) : Str := List.intercalate [nlChar] parts

/-- The accumulation loop over `msg.walk()` in `_extract_bodies`:
skip multipart containers, skip attachment-disposition parts, route
`text/plain` and `text/html` leaves into the two lists, ignore other
leaf types. -/
def collectParts (parts : List WalkPart) : List Str × List Str :=
  parts.foldl
    (fun acc p =>
      match p.ptype with
      | PartType.multipartContainer => acc
      | _ =>
        if p.isAttachment then acc
        else
          match p.ptype with
          | PartType.plain => (acc.1 ++ [p.text], acc.2)
          | PartType.html => (acc.1, acc.2 ++ [p.text])
          | _ => acc)
    ([], [])

/-- `IMAPClient._extract_bodies`: returns `(body_text, body_html)`,
each the newline-join of its collected parts, stripped. -/
def extract_bodies (b : MsgBody) : Str × Str :=
  let pq : List Str × List Str :=
    match b with
    | MsgBody.multi parts => collectParts parts
    | MsgBody.single t text =>
      if t = PartType.html then ([], [text]) else ([text], [])
  (pyStrip (joinNL pq.1), pyStrip (joinNL pq.2))

/-! ### `html.escape` and the minimal-HTML fallback -/

/-- The ampersand, written by code point to keep the file plain. -/
def ampChar : Char := Char.ofNat 38

/-- The double-quote character. -/
def dquoteChar : Char := Char.ofNat 34

/-- The single-quote character. -/
def squoteChar : Char := Char.ofNat 39

/-- Expansion of one character under `html.escape(s)` (quote=True).
The stdlib replaces `&` first and then the other four characters in
sequence, which is equivalent to this independent per-character
expansion. -/
def escapeChar (c : Char) : Str :=
  if c = ampChar then "&amp;".toList
  else if c = '<' then "&lt;".toList
  else if c = '>' then "&gt;".toList
  else if c = dquoteChar then "&quot;".toList
  else if c = squoteChar then "&#x27;".toList
  else [c]

/-- `html.escape(text)` with the default `quote=True`. -/
def html_escape (s : Str) : Str := s.flatMap escapeChar

/-- The opening wrapper tag of `_plaintext_to_minimal_html`
(`<pre style='white-space:pre-wrap;margin:0'>`). -/
def preTagOpen : Str :=
  "<pre style=".toList ++ [squoteChar] ++
    "white-space:pre-wrap;margin:0".toList ++ [squoteChar] ++ ">".toList

/-- The closing wrapper tag of `_plaintext_to_minimal_html`. -/
def preTagClose : Str := "</pre>".toList

/-- `IMAPClient._plaintext_to_minimal_html`. -/
def plaintext_to_minimal_html (text : Str) : Str :=
  preTagOpen ++ html_escape text ++ preTagClose

/-- `html.unescape` restricted to the five entity references that
`html.escape` emits (each terminated by its semicolon, so the match is
unambiguous); any other character, ampersand included, passes through. -/
def htmlUnescape : Str → Str
  | [] => []
  | c :: rest =>
    if c = ampChar then
      match rest with
      | 'a' :: 'm' :: 'p' :: ';' :: r => ampChar :: htmlUnescape r
      | 'l' :: 't' :: ';' :: r => '<' :: htmlUnescape r
      | 'g' :: 't' :: ';' :: r => '>' :: htmlUnescape r
      | 'q' :: 'u' :: 'o' :: 't' :: ';' :: r => dquoteChar :: htmlUnescape r
      | '#' :: 'x' :: '2' :: '7' :: ';' :: r => squoteChar :: htmlUnescape r
      | r => c :: htmlUnescape r
    else c :: htmlUnescape rest

/-- The per-message record construction inlined in the fetch loop of
`get_messages` (header decoding, body extraction, and the
plaintext-to-HTML fallback `if not body_html and body_text`). -/
def recordOfRaw (hdrDecode : Str → Option Str) (m : RawMsg) : MessageRecord :=
  let subject := decode_maybe_encoded hdrDecode m.subjectH
  let fromV := decode_maybe_encoded hdrDecode m.fromH
  let toV := decode_maybe_encoded hdrDecode m.toH
  let dateV := decode_maybe_encoded hdrDecode m.dateH
  let msgIdVal := m.messageIdH.getD []
  let bodies := extract_bodies m.body
  let bodyText := bodies.1
  let bodyHtml :=
    if bodies.2 = [] ∧ bodyText ≠ [] then plaintext_to_minimal_html bodyText
    else bodies.2
  ⟨subject, fromV, toV, dateV, msgIdVal, bodyText, bodyHtml⟩

/-! ## Session state (`IMAPClient.__init__` fields)

Besides the Python attributes `email`, `password`, `server` and
`_connected_host`, the state carries a ghost ledger `handles` of every
transport handle ever created by this session, with a liveness bit
(true = the underlying connection was opened and has not been logged
out).  `server` stores the id of the handle currently bound to
`self.server`, or `none` for Python `None`.  The ledger is
instrumentation for stating resource invariants; it has no Python
counterpart and no definition reads it to decide behaviour. -/

structure Session where
  email : Str
  password : Str
  server : Option Nat
  connected_host : Option Str
  handles : List (Nat × Bool)
deriving DecidableEq

/-- `IMAPClient(email_addr, password)`: fresh instance. -/
def mkSession (email_addr password : Str) : Session :=
  ⟨email_addr, password, none, none, []⟩

/-- Flip the liveness bit of handle `hid` in the ledger. -/
def setLive (hs : List (Nat × Bool)) (hid : Nat) (live : Bool) : List (Nat × Bool) :=
  hs.map (fun h => if h.1 = hid then (h.1, live) else h)

/-! ## `connect` -/

/-- What the environment does when `connect` tries one candidate host:
the `imaplib.IMAP4_SSL` constructor raises (`connFail`, a socket/TLS/IMAP
error `e`), or the constructor succeeds and `login` raises (`loginRaise`),
or `login` returns a status other than `"OK"` (`loginNotOK`), or `login`
returns `"OK"` (`loginOK`). -/
inductive HostOutcome
  | connFail (e : Str)
  | loginRaise (e : Str)
  | loginNotOK
  | loginOK
deriving DecidableEq

/-- The environment a run of `connect` interacts with: an outcome per
host, and whether the best-effort cleanup `logout` after a rejected
login raises (its exception is swallowed by the source). -/
structure ConnEnv where
  outcome : Str → HostOutcome
  logoutFails : Str → Bool

/-- The `last_error` values `connect` records: a caught exception
(socket/TLS/IMAP, kept as its text), or the `MailAuthError` built for a
host whose login returned non-`"OK"`. -/
inductive ConnCause
  | exc (e : Str)
  | authFail (host : Str)
deriving DecidableEq

/-- The `last_error` a candidate with the given outcome leaves behind
(`none` for a successful login, which records no error). -/
def causeOf (host : Str) : HostOutcome → Option ConnCause
  | HostOutcome.connFail e => some (ConnCause.exc e)
  | HostOutcome.loginRaise e => some (ConnCause.exc e)
  | HostOutcome.loginNotOK => some (ConnCause.authFail host)
  | HostOutcome.loginOK => none

/-- Errors raised by the client.  In Python every one of these is a
`MailAuthError` carrying a formatted message; the constructors keep the
data that message is formatted from. -/
inductive MailError
  | noActiveConnection
  | selectFailed (mailbox : Str)
  | searchFailed
  | authExhausted (email_addr : Str) (tried : List Str) (lastError : Option ConnCause)
deriving DecidableEq

/-- Result of the candidate loop in `connect`: the state after the loop,
the successful host if any, the final `last_error`, and every
intermediate `Session` state, in order, produced while iterating. -/
structure ConnectRun where
  final : Session
  success : Option Str
  lastError : Option ConnCause
  trace : List Session

/-- The `for host in self._candidate_hosts():` loop of `connect`.
Each iteration that reaches the constructor creates a fresh handle
(ghost id = ledger length) and binds it to `server`; the `except`
branches set `server := none` without touching the handle (it leaks
live); a rejected login attempts `logout` (killing the handle unless
logout itself raises) and then sets `server := none`; a successful
login records the host and returns. -/
def tryHosts (env : ConnEnv) : List Str → Session → Option ConnCause → ConnectRun
  | [], s, last => ⟨s, none, last, []⟩
  | host :: rest, s, last =>
    match env.outcome host with
    | HostOutcome.connFail e =>
      let s1 := { s with server := none }
      let r := tryHosts env rest s1 (some (ConnCause.exc e))
      ⟨r.final, r.success, r.lastError, s1 :: r.trace⟩
    | HostOutcome.loginRaise e =>
      let hid := s.handles.length
      let s1 := { s with server := some hid, handles := s.handles ++ [(hid, true)] }
      let s2 := { s1 with server := none }
      let r := tryHosts env rest s2 (some (ConnCause.exc e))
      ⟨r.final, r.success, r.lastError, s1 :: s2 :: r.trace⟩
    | HostOutcome.loginNotOK =>
      let hid := s.handles.length
      let s1 := { s with server := some hid, handles := s.handles ++ [(hid, true)] }
      let s2 := { s1 with handles := setLive s1.handles hid (env.logoutFails host) }
      let s3 := { s2 with server := none }
      let r := tryHosts env rest s3 (some (ConnCause.authFail host))
      ⟨r.final, r.success, r.lastError, s1 :: s2 :: s3 :: r.trace⟩
    | HostOutcome.loginOK =>
      let hid := s.handles.length
      let s1 := { s with server := some hid, handles := s.handles ++ [(hid, true)],
                         connected_host := some host }
      ⟨s1, some host, last, [s1]⟩

/-- `IMAPClient.connect`: run the candidate loop; on success return the
bound host, on exhaustion raise `MailAuthError` whose message is
formatted from the address, the full candidate list and `last_error`.
Returns the final state, the outcome, and the intermediate states. -/
def connect (servers : ServerMap) (env : ConnEnv) (s : Session) :
    Session × Except MailError Str × List Session :=
  let cands := candidate_hosts servers s.email
  let run := tryHosts env cands s none
  match run.success with
  | some host => (run.final, Except.ok host, run.trace)
  | none =>
    (run.final,
     Except.error (MailError.authExhausted s.email cands run.lastError),
     run.trace)

/-! ## `disconnect` -/

/-- Environment of one `disconnect` call: whether the graceful `logout`
raises (the source logs and swallows it either way). -/
structure DiscEnv where
  logoutFails : Bool

/-- `IMAPClient.disconnect`: if a server handle is bound, attempt
logout (best-effort) and then, in the `finally` block, clear both
`server` and `_connected_host`; if no handle is bound, do nothing.
Total — it never raises. -/
def disconnect (env : DiscEnv) (s : Session) : Session :=
  match s.server with
  | none => s
  | some hid =>
    { s with server := none, connected_host := none,
             handles := setLive s.handles hid env.logoutFails }

/-! ## `get_messages` -/

/-- Fetch mode string chosen by `get_messages`:
`"(RFC822)"` when `mark_seen` else `"(BODY.PEEK[])"`. -/
inductive FetchMode
  | rfc822
  | bodyPeek
deriving DecidableEq

/-- Whether a fetch mode alters the server-side `\Seen` flag.
Modelled from the spec: a "peek fetch" is "a message retrieval mode
that does not alter the message's server-side seen/unseen flag", while
the plain full-body mode marks the message seen. -/
def FetchMode.altersSeenFlag : FetchMode → Bool
  | FetchMode.rfc822 => true
  | FetchMode.bodyPeek => false

/-- A protocol operation issued on the transport by `get_messages`. -/
inductive NetOp
  | select (mailbox : Str) (readonly : Bool)
  | search (criteria : Str)
  | fetch (id : Str) (mode : FetchMode)
deriving DecidableEq

/-- Environment of one `get_messages` call: whether `select` and
`search` answer `"OK"`, the identifier tokens of `data[0].split()`, and
the per-identifier fetch result (`none` models `typ != "OK" or not data
or data[0] is None`, i.e. a skipped message). -/
structure MailEnv where
  selectOK : Bool
  searchOK : Bool
  searchIds : List Str
  fetchResult : Str → Option RawMsg

/-- Python `l[-limit:]` for an `int` limit.  For `limit > 0` this is the
last `limit` elements; for `limit = 0` the slice start `-0` is `0`, so
the whole list is taken; for negative `limit` it is `l[(-limit):]`. -/
def pyTailSlice (limit : Int) (l : List α) : List α :=
  if 0 < limit then l.drop (l.length - limit.toNat)
  else l.drop (-limit).toNat

/-- `IMAPClient.get_messages`.  Returns the Python result (value or
raised error) together with the list of protocol operations issued. -/
def get_messages (hdrDecode : Str → Option Str) (env : MailEnv) (s : Session)
    (mailbox criteria : Str) (limit : Int) (mark_seen : Bool) :
    Except MailError (List MessageRecord) × List NetOp :=
  match s.server with
  | none => (Except.error MailError.noActiveConnection, [])
  | some _ =>
    let ops1 := [NetOp.select mailbox true]
    if env.selectOK = false then
      (Except.error (MailError.selectFailed mailbox), ops1)
    else
      let ops2 := ops1 ++ [NetOp.search criteria]
      if env.searchOK = false then (Except.error MailError.searchFailed, ops2)
      else if env.searchIds = [] then (Except.ok [], ops2)
      else
        let ids := pyTailSlice limit env.searchIds
        let mode := if mark_seen then FetchMode.rfc822 else FetchMode.bodyPeek
        let ops3 := ops2 ++ ids.map (fun i => NetOp.fetch i mode)
        let msgs := ids.filterMap
          (fun i => (env.fetchResult i).map (recordOfRaw hdrDecode))
        (Except.ok msgs.reverse, ops3)

/-! ## Invariant vocabulary for the resource claims -/

/-- Well-formedness of the ghost handle ledger: every handle id is
below the ledger length (so a fresh id never collides) and ids are
pairwise distinct. -/
def HandlesInv (hs : List (Nat × Bool)) : Prop :=
  (∀ k ∈ hs.map Prod.fst, k < hs.length) ∧ (hs.map Prod.fst).Nodup

instance (hs : List (Nat × Bool)) : Decidable (HandlesInv hs) := by
  unfold HandlesInv
  exact instDecidableAnd

/-- The live transport handles currently bound to the session
(`self.server` pointing at a handle whose connection is still open). -/
def liveBoundHandles (s : Session) : List (Nat × Bool) :=
  s.handles.filter (fun h => h.2 && (s.server == some h.1))

/-- Recognizer for fetch operations in an issued-operation trace. -/
def isFetchOp : NetOp → Bool
  | NetOp.fetch _ _ => true
  | _ => false

/-! ## Concrete fixtures used by witnesses and counterexamples -/

/-- A mapping with one mapped domain. -/
def srvGmail : ServerMap :=
  fun d => if d = "gmail.com".toList then some "imap.gmail.com".toList else none

/-- A mapping whose one mapped domain carries an empty host string. -/
def srvEmptyHost : ServerMap :=
  fun d => if d = "x.com".toList then some [] else none

/-- The everywhere-unmapped mapping. -/
def srvNone : ServerMap := fun _ => none

/-- A header decoder environment where every decode raises. -/
def hdrNone : Str → Option Str := fun _ => none

/-- A header decoder environment decoding one encoded-word value. -/
def hdrSubj : Str → Option Str :=
  fun v => if v = "=?utf-8?B?aGk=?=".toList then some "hi".toList else none

/-- A plain-text-only single-part message. -/
def msgHi : RawMsg :=
  ⟨none, none, none, none, none, MsgBody.single PartType.plain "hi".toList⟩

/-- A fetch environment: select and search succeed, one identifier,
every fetch succeeds with `msgHi`. -/
def envOneMsg : MailEnv := ⟨true, true, ["1".toList], fun _ => some msgHi⟩

/-- A fetch environment with three identifiers in ascending order. -/
def envThreeMsgs : MailEnv :=
  ⟨true, true, ["1".toList, "2".toList, "3".toList], fun _ => some msgHi⟩

/-- A session with an established connection (one live bound handle). -/
def sConnected : Session :=
  ⟨"a@b.c".toList, "pw".toList, some 0, some "imap.firstmail.ltd".toList, [(0, true)]⟩

/-- A connect environment where the first login succeeds. -/
def cenvOK : ConnEnv := ⟨fun _ => HostOutcome.loginOK, fun _ => false⟩

/-- A connect environment where every connection attempt raises. -/
def cenvConnFail : ConnEnv :=
  ⟨fun _ => HostOutcome.connFail "refused".toList, fun _ => false⟩

/-- A connect environment where every login is rejected (non-`"OK"`). -/
def cenvNotOK : ConnEnv := ⟨fun _ => HostOutcome.loginNotOK, fun _ => false⟩

/-- A disconnect environment whose logout succeeds. -/
def discOK : DiscEnv := ⟨false⟩

/-- State after a successful `connect` on a fresh instance. -/
def cexS1 : Session := (connect srvNone cenvOK (mkSession "a@b.c".toList "pw".toList)).1

/-- State after a subsequent `connect` in which every candidate's
connection attempt fails: `server` is back to `none` but the stale
`_connected_host` from the earlier success is kept. -/
def cexS2 : Session := (connect srvNone cenvConnFail cexS1).1

/-! ## Theorems -/

theorem candidate_hosts_eq (servers : ServerMap) (email_addr : Str) :
    candidate_hosts servers email_addr =
      match servers (usedDomain email_addr) with
      | some host => if host = [] then defaultHosts else [host]
      | none => defaultHosts := rfl

theorem candidate_hosts_ne_nil (servers : ServerMap) (email_addr : Str) :
    candidate_hosts servers email_addr ≠ [] := by
  rw [candidate_hosts_eq]
  cases servers (usedDomain email_addr) with
  | none => simp [defaultHosts]
  | some host => by_cases h : host = [] <;> simp [h, defaultHosts]

/-- C4 (amended): an address whose domain is mapped to a non-empty host
yields exactly that one-element candidate list; an address whose domain
is unmapped — or mapped to the empty string, which the Python truthiness
test `if host:` treats as unmapped — yields the fixed two-entry default
sequence in its fixed order. -/
theorem candidate_hosts_mapped_nonempty (servers : ServerMap) (email_addr h : Str) :
    (servers (usedDomain email_addr) = some h → h ≠ [] →
      candidate_hosts servers email_addr = [h]) ∧
    (servers (usedDomain email_addr) = none →
      candidate_hosts servers email_addr =
        ["imap.firstmail.ltd".toList, "imap.notletters.com".toList]) ∧
    (servers (usedDomain email_addr) = some [] →
      candidate_hosts servers email_addr =
        ["imap.firstmail.ltd".toList, "imap.notletters.com".toList]) := by
  refine ⟨fun h1 h2 => ?_, fun h1 => ?_, fun h1 => ?_⟩ <;>
    rw [candidate_hosts_eq, h1] <;> simp [defaultHosts]
  exact h2

/-- C4 witness: a mapped domain gives the singleton, an unmapped one
the default pair. -/
theorem candidate_hosts_mapped_nonempty_witness :
    candidate_hosts srvGmail "user@gmail.com".toList = ["imap.gmail.com".toList] ∧
    candidate_hosts srvGmail "user@yahoo.com".toList =
      ["imap.firstmail.ltd".toList, "imap.notletters.com".toList] :=
  ⟨(candidate_hosts_mapped_nonempty srvGmail "user@gmail.com".toList
      "imap.gmail.com".toList).1 (by decide) (by decide),
   (candidate_hosts_mapped_nonempty srvGmail "user@yahoo.com".toList []).2.1 (by decide)⟩

/-- C4 counterexample: the domain `x.com` is present in the mapping
(mapped to the empty string), yet the candidate list is not the
one-element list holding the mapped host — `if host:` sends the lookup
to the default pair instead. -/
theorem candidate_hosts_empty_mapped_host_falls_back :
    srvEmptyHost (usedDomain "a@x.com".toList) = some [] ∧
    candidate_hosts srvEmptyHost "a@x.com".toList ≠ [[]] ∧
    candidate_hosts srvEmptyHost "a@x.com".toList =
      ["imap.firstmail.ltd".toList, "imap.notletters.com".toList] := by
  decide

/-- C10: the candidate-host computation is total on every address
string: the lookup key is the lowercased, whitespace-stripped substring
after the last `@` — the whole string when no `@` is present — and the
result is always either a one-element list or the default pair, with no
one-`@` shape requirement enforced anywhere. -/
theorem candidate_hosts_total_domain_rule (servers : ServerMap) (s pre post : Str) :
    ('@' ∉ s → usedDomain s = pyLower (pyStrip s)) ∧
    (s = pre ++ '@' :: post → '@' ∉ post → usedDomain s = pyLower (pyStrip post)) ∧
    ((∃ h, candidate_hosts servers s = [h]) ∨
      candidate_hosts servers s = defaultHosts) := by
  refine ⟨fun hnot => ?_, fun hs hnot => ?_, ?_⟩
  · unfold usedDomain
    rw [pySplit_of_not_mem '@' s hnot]
    rfl
  · unfold usedDomain
    rw [hs, pySplit_getLast?_append, pySplit_of_not_mem '@' post hnot]
    rfl
  · rw [candidate_hosts_eq]
    cases servers (usedDomain s) with
    | none => exact Or.inr rfl
    | some host =>
      by_cases h : host = []
      · exact Or.inr (by simp [h])
      · exact Or.inl ⟨host, by simp [h]⟩

/-- C10 witness: no-`@` and two-`@` addresses both compute, using the
whole string resp. the part after the last `@`. -/
theorem candidate_hosts_total_domain_rule_witness :
    usedDomain "noatsign".toList = pyLower (pyStrip "noatsign".toList) ∧
    usedDomain "a@b@C.com ".toList = pyLower (pyStrip "C.com ".toList) :=
  ⟨(candidate_hosts_total_domain_rule srvNone "noatsign".toList [] []).1 (by decide),
   (candidate_hosts_total_domain_rule srvNone "a@b@C.com ".toList
      "a@b".toList "C.com ".toList).2.1 (by decide) (by decide)⟩

/-- C8: header decoding returns the decoded display string when the
decode succeeds, falls back to the raw header value when decoding
raises, and returns the empty string for a missing header. -/
theorem decode_maybe_encoded_spec (hdrDecode : Str → Option Str) (v d : Str) :
    (hdrDecode v = some d → decode_maybe_encoded hdrDecode (some v) = d) ∧
    (hdrDecode v = none → decode_maybe_encoded hdrDecode (some v) = v) ∧
    decode_maybe_encoded hdrDecode none = [] := by
  refine ⟨fun h => ?_, fun h => ?_, rfl⟩ <;> simp [decode_maybe_encoded, h]

/-- C8 witness: one well-formed encoded word decodes, one malformed
value degrades to itself, a missing header maps to the empty string. -/
theorem decode_maybe_encoded_spec_witness :
    decode_maybe_encoded hdrSubj (some "=?utf-8?B?aGk=?=".toList) = "hi".toList ∧
    decode_maybe_encoded hdrSubj (some "=?bad".toList) = "=?bad".toList ∧
    decode_maybe_encoded hdrSubj none = [] :=
  ⟨(decode_maybe_encoded_spec hdrSubj "=?utf-8?B?aGk=?=".toList "hi".toList).1 (by decide),
   (decode_maybe_encoded_spec hdrSubj "=?bad".toList []).2.1 (by decide),
   (decode_maybe_encoded_spec hdrSubj [] []).2.2⟩

/-! ### Reduction lemmas for `htmlUnescape` and `html_escape` -/

set_option maxHeartbeats 2000000 in
theorem htmlUnescape_amp (t : Str) :
    htmlUnescape (ampChar :: 'a' :: 'm' :: 'p' :: ';' :: t) =
      ampChar :: htmlUnescape t := by
  simp [htmlUnescape]

set_option maxHeartbeats 2000000 in
theorem htmlUnescape_lt (t : Str) :
    htmlUnescape (ampChar :: 'l' :: 't' :: ';' :: t) = '<' :: htmlUnescape t := by
  simp [htmlUnescape]

set_option maxHeartbeats 2000000 in
theorem htmlUnescape_gt (t : Str) :
    htmlUnescape (ampChar :: 'g' :: 't' :: ';' :: t) = '>' :: htmlUnescape t := by
  simp [htmlUnescape]

set_option maxHeartbeats 2000000 in
theorem htmlUnescape_quot (t : Str) :
    htmlUnescape (ampChar :: 'q' :: 'u' :: 'o' :: 't' :: ';' :: t) =
      dquoteChar :: htmlUnescape t := by
  simp [htmlUnescape]

set_option maxHeartbeats 2000000 in
theorem htmlUnescape_squot (t : Str) :
    htmlUnescape (ampChar :: '#' :: 'x' :: '2' :: '7' :: ';' :: t) =
      squoteChar :: htmlUnescape t := by
  simp [htmlUnescape]

set_option maxHeartbeats 2000000 in
theorem htmlUnescape_other (c : Char) (t : Str) (h : c ≠ ampChar) :
    htmlUnescape (c :: t) = c :: htmlUnescape t := by
  unfold htmlUnescape
  simp [h]
  exact htmlUnescape.eq_def t

theorem html_escape_nil : html_escape [] = [] := rfl

theorem html_escape_cons (c : Char) (t : Str) :
    html_escape (c :: t) = escapeChar c ++ html_escape t := rfl

theorem escapeChar_not_special (c : Char) (h1 : c ≠ ampChar) (h2 : c ≠ '<')
    (h3 : c ≠ '>') (h4 : c ≠ dquoteChar) (h5 : c ≠ squoteChar) :
    escapeChar c = [c] := by
  simp [escapeChar, h1, h2, h3, h4, h5]

/-- `html.unescape` is a left inverse of `html.escape`. -/
theorem htmlUnescape_html_escape (t : Str) :
    htmlUnescape (html_escape t) = t := by
  induction t with
  | nil => rfl
  | cons c cs ih =>
    rw [html_escape_cons]
    by_cases h1 : c = ampChar
    · subst h1
      rw [show escapeChar ampChar = ampChar :: 'a' :: 'm' :: 'p' :: ';' :: [] from by decide]
      simp only [List.cons_append, List.nil_append]
      rw [htmlUnescape_amp, ih]
    by_cases h2 : c = '<'
    · subst h2
      rw [show escapeChar '<' = ampChar :: 'l' :: 't' :: ';' :: [] from by decide]
      simp only [List.cons_append, List.nil_append]
      rw [htmlUnescape_lt, ih]
    by_cases h3 : c = '>'
    · subst h3
      rw [show escapeChar '>' = ampChar :: 'g' :: 't' :: ';' :: [] from by decide]
      simp only [List.cons_append, List.nil_append]
      rw [htmlUnescape_gt, ih]
    by_cases h4 : c = dquoteChar
    · subst h4
      rw [show escapeChar dquoteChar =
            ampChar :: 'q' :: 'u' :: 'o' :: 't' :: ';' :: [] from by decide]
      simp only [List.cons_append, List.nil_append]
      rw [htmlUnescape_quot, ih]
    by_cases h5 : c = squoteChar
    · subst h5
      rw [show escapeChar squoteChar =
            ampChar :: '#' :: 'x' :: '2' :: '7' :: ';' :: [] from by decide]
      simp only [List.cons_append, List.nil_append]
      rw [htmlUnescape_squot, ih]
    rw [escapeChar_not_special c h1 h2 h3 h4 h5, List.singleton_append,
        htmlUnescape_other c _ h1, ih]

/-- C7: when body extraction found no HTML part but a non-empty plain
text, the produced `body_html` is the plain text escaped and wrapped in
the whitespace-preserving `<pre>` container; unescaping the escaped
content reproduces the plain text exactly, and the synthesized
`body_html` is never empty. -/
theorem fallback_html_roundtrip (hdrDecode : Str → Option Str) (m : RawMsg)
    (hNoHtml : (extract_bodies m.body).2 = [])
    (hText : (extract_bodies m.body).1 ≠ []) :
    (recordOfRaw hdrDecode m).body_text = (extract_bodies m.body).1 ∧
    (recordOfRaw hdrDecode m).body_html =
      preTagOpen ++ html_escape (extract_bodies m.body).1 ++ preTagClose ∧
    htmlUnescape (html_escape (extract_bodies m.body).1) = (extract_bodies m.body).1 ∧
    (recordOfRaw hdrDecode m).body_html ≠ [] := by
  have hopen : preTagOpen ≠ [] := by decide
  refine ⟨rfl, ?_, htmlUnescape_html_escape _, ?_⟩ <;>
    simp [recordOfRaw, hNoHtml, hText, plaintext_to_minimal_html]
  intro hcontra
  exact absurd hcontra hopen

/-- C7 witness: a plain-text-only message gets the escaped, wrapped,
round-trippable fallback body. -/
theorem fallback_html_roundtrip_witness :
    (recordOfRaw hdrNone msgHi).body_text = (extract_bodies msgHi.body).1 ∧
    (recordOfRaw hdrNone msgHi).body_html =
      preTagOpen ++ html_escape (extract_bodies msgHi.body).1 ++ preTagClose ∧
    htmlUnescape (html_escape (extract_bodies msgHi.body).1) =
      (extract_bodies msgHi.body).1 ∧
    (recordOfRaw hdrNone msgHi).body_html ≠ [] :=
  fallback_html_roundtrip hdrNone msgHi (by decide) (by decide)

/-- C2: with no bound server handle — as on a fresh instance and as
after any `disconnect` — `get_messages` fails with the
"no active connection" error and issues no protocol operation. -/
theorem get_messages_no_session (hdrDecode : Str → Option Str) (env : MailEnv)
    (mailbox criteria : Str) (limit : Int) (mark_seen : Bool)
    (e p : Str) (denv : DiscEnv) (s s2 : Session) (h : s2.server = none) :
    get_messages hdrDecode env s2 mailbox criteria limit mark_seen =
      (Except.error MailError.noActiveConnection, []) ∧
    (mkSession e p).server = none ∧
    (disconnect denv s).server = none := by
  refine ⟨?_, rfl, ?_⟩
  · unfold get_messages
    rw [h]
  · cases hs : s.server <;> simp [disconnect, hs]

/-- C2 witness: a fresh instance rejects the call without issuing
operations. -/
theorem get_messages_no_session_witness :
    get_messages hdrNone envOneMsg (mkSession "a@b.c".toList "pw".toList)
        "INBOX".toList "ALL".toList 50 false =
      (Except.error MailError.noActiveConnection, []) ∧
    (mkSession "x".toList "y".toList).server = none ∧
    (disconnect discOK sConnected).server = none :=
  get_messages_no_session hdrNone envOneMsg "INBOX".toList "ALL".toList 50 false
    "x".toList "y".toList discOK sConnected
    (mkSession "a@b.c".toList "pw".toList) rfl

theorem get_messages_ops (hdrDecode : Str → Option Str) (env : MailEnv)
    (s : Session) (mailbox criteria : Str) (limit : Int) (mark_seen : Bool)
    (hid : Nat) (h : s.server = some hid) :
    (get_messages hdrDecode env s mailbox criteria limit mark_seen).2 =
        [NetOp.select mailbox true] ∨
    (get_messages hdrDecode env s mailbox criteria limit mark_seen).2 =
        [NetOp.select mailbox true, NetOp.search criteria] ∨
    (get_messages hdrDecode env s mailbox criteria limit mark_seen).2 =
        [NetOp.select mailbox true, NetOp.search criteria] ++
          (pyTailSlice limit env.searchIds).map
            (fun i => NetOp.fetch i
              (if mark_seen then FetchMode.rfc822 else FetchMode.bodyPeek)) := by
  unfold get_messages
  rw [h]
  by_cases h1 : env.selectOK = false
  · simp [h1]
  · by_cases h2 : env.searchOK = false
    · simp [h1, h2]
    · by_cases h3 : env.searchIds = [] <;> simp [h1, h2, h3]

/-- C3: with a session established, the mailbox is always selected
read-only (in particular when `mark_seen` is false), every fetch uses
the peek mode exactly when `mark_seen` is false and the seen-marking
full mode exactly when it is true; so with `mark_seen` false no issued
fetch alters the server-side seen flag. -/
theorem get_messages_readonly_and_peek (hdrDecode : Str → Option Str) (env : MailEnv)
    (s : Session) (mailbox criteria : Str) (limit : Int) (mark_seen : Bool)
    (hid : Nat) (h : s.server = some hid) :
    (get_messages hdrDecode env s mailbox criteria limit mark_seen).2.head? =
      some (NetOp.select mailbox true) ∧
    (∀ i m, NetOp.fetch i m ∈
        (get_messages hdrDecode env s mailbox criteria limit mark_seen).2 →
      m = (if mark_seen then FetchMode.rfc822 else FetchMode.bodyPeek)) ∧
    (mark_seen = false →
      ∀ i m, NetOp.fetch i m ∈
          (get_messages hdrDecode env s mailbox criteria limit mark_seen).2 →
        FetchMode.altersSeenFlag m = false) := by
  have hops := get_messages_ops hdrDecode env s mailbox criteria limit mark_seen hid h
  have hmode : ∀ i m, NetOp.fetch i m ∈
      (get_messages hdrDecode env s mailbox criteria limit mark_seen).2 →
      m = (if mark_seen then FetchMode.rfc822 else FetchMode.bodyPeek) := by
    intro i m hm
    rcases hops with h1 | h1 | h1 <;> rw [h1] at hm <;> simp at hm
    obtain ⟨a, _, _, hmm⟩ := hm
    exact hmm.symm
  refine ⟨?_, hmode, fun hms i m hm => ?_⟩
  · rcases hops with h1 | h1 | h1 <;> rw [h1] <;> rfl
  · have hmv := hmode i m hm
    rw [hms] at hmv
    simp at hmv
    rw [hmv]
    rfl

/-- C3 witness: a concrete connected session, once with `mark_seen`
false and once with it true. -/
theorem get_messages_readonly_and_peek_witness :
    ((get_messages hdrNone envOneMsg sConnected "INBOX".toList "ALL".toList
        50 false).2.head? = some (NetOp.select "INBOX".toList true) ∧
      (∀ i m, NetOp.fetch i m ∈
          (get_messages hdrNone envOneMsg sConnected "INBOX".toList "ALL".toList
            50 false).2 →
        m = (if false then FetchMode.rfc822 else FetchMode.bodyPeek)) ∧
      (false = false →
        ∀ i m, NetOp.fetch i m ∈
            (get_messages hdrNone envOneMsg sConnected "INBOX".toList "ALL".toList
              50 false).2 →
          FetchMode.altersSeenFlag m = false)) ∧
    (∀ i m, NetOp.fetch i m ∈
        (get_messages hdrNone envOneMsg sConnected "INBOX".toList "ALL".toList
          50 true).2 →
      m = (if true then FetchMode.rfc822 else FetchMode.bodyPeek)) :=
  ⟨get_messages_readonly_and_peek hdrNone envOneMsg sConnected "INBOX".toList
      "ALL".toList 50 false 0 rfl,
   (get_messages_readonly_and_peek hdrNone envOneMsg sConnected "INBOX".toList
      "ALL".toList 50 true 0 rfl).2.1⟩

theorem filter_isFetchOp_map (ids : List Str) (mode : FetchMode) :
    (ids.map (fun i => NetOp.fetch i mode)).filter isFetchOp =
      ids.map (fun i => NetOp.fetch i mode) := by
  induction ids with
  | nil => rfl
  | cons a l ih => simp [isFetchOp, ih, List.filter_cons]

theorem pyTailSlice_pos (limit : Int) (h : 1 ≤ limit) (l : List α) :
    pyTailSlice limit l = l.drop (l.length - limit.toNat) := by
  unfold pyTailSlice
  rw [if_pos (by omega)]

theorem length_pyTailSlice_le (limit : Int) (h : 1 ≤ limit) (l : List α) :
    (pyTailSlice limit l).length ≤ limit.toNat := by
  rw [pyTailSlice_pos limit h, List.length_drop]
  omega

theorem get_messages_result_main (hdrDecode : Str → Option Str) (env : MailEnv)
    (s : Session) (mailbox criteria : Str) (limit : Int) (mark_seen : Bool)
    (hid : Nat) (h : s.server = some hid) (h1 : env.selectOK = true)
    (h2 : env.searchOK = true) (h3 : env.searchIds ≠ []) :
    (get_messages hdrDecode env s mailbox criteria limit mark_seen).1 =
      Except.ok (((pyTailSlice limit env.searchIds).filterMap
        (fun i => (env.fetchResult i).map (recordOfRaw hdrDecode))).reverse) ∧
    (get_messages hdrDecode env s mailbox criteria limit mark_seen).2 =
      [NetOp.select mailbox true, NetOp.search criteria] ++
        (pyTailSlice limit env.searchIds).map
          (fun i => NetOp.fetch i
            (if mark_seen then FetchMode.rfc822 else FetchMode.bodyPeek)) := by
  unfold get_messages
  rw [h]
  simp [h1, h2, h3]

/-- C1 (amended): for every positive caller-supplied limit the returned
batch has length between 0 and the limit; and given a search result of
N ascending identifiers with 1 ≤ L ≤ N, exactly the last L identifiers
are fetched and the surviving records are returned newest-first, each
failed or skipped individual fetch dropped without aborting the batch.
(For limit = 0 the Python slice `msg_ids[-limit:]` degenerates to the
whole list, so the bound does not hold; see the counterexample.) -/
theorem get_messages_bound_and_order (hdrDecode : Str → Option Str) (env : MailEnv)
    (s : Session) (mailbox criteria : Str) (limit : Int) (mark_seen : Bool)
    (hpos : 1 ≤ limit) :
    (∀ recs, (get_messages hdrDecode env s mailbox criteria limit mark_seen).1 =
        Except.ok recs → recs.length ≤ limit.toNat) ∧
    (∀ hid, s.server = some hid → limit.toNat ≤ env.searchIds.length →
      env.selectOK = true → env.searchOK = true →
      (get_messages hdrDecode env s mailbox criteria limit mark_seen).1 =
        Except.ok (((env.searchIds.drop (env.searchIds.length - limit.toNat)).filterMap
          (fun i => (env.fetchResult i).map (recordOfRaw hdrDecode))).reverse) ∧
      (get_messages hdrDecode env s mailbox criteria limit mark_seen).2.filter
          isFetchOp =
        (env.searchIds.drop (env.searchIds.length - limit.toNat)).map
          (fun i => NetOp.fetch i
            (if mark_seen then FetchMode.rfc822 else FetchMode.bodyPeek))) := by
  constructor
  · intro recs hrecs
    cases hs : s.server with
    | none =>
      unfold get_messages at hrecs
      rw [hs] at hrecs
      simp at hrecs
    | some hid =>
      unfold get_messages at hrecs
      rw [hs] at hrecs
      by_cases h1 : env.selectOK = false
      · simp [h1] at hrecs
      · by_cases h2 : env.searchOK = false
        · simp [h1, h2] at hrecs
        · by_cases h3 : env.searchIds = []
          · simp [h1, h2, h3] at hrecs
            rw [hrecs]
            simp
          · simp [h1, h2, h3] at hrecs
            rw [← hrecs]
            calc ((pyTailSlice limit env.searchIds).filterMap
                    (fun i => (env.fetchResult i).map (recordOfRaw hdrDecode))).reverse.length
                ≤ (pyTailSlice limit env.searchIds).length := by
                  rw [List.length_reverse]
                  exact List.length_filterMap_le _ _
              _ ≤ limit.toNat := length_pyTailSlice_le limit hpos _
  · intro hid hs hlen h1 h2
    have h3 : env.searchIds ≠ [] := by
      intro hnil
      rw [hnil] at hlen
      simp at hlen
      omega
    have hmain := get_messages_result_main hdrDecode env s mailbox criteria limit
      mark_seen hid hs h1 h2 h3
    rw [pyTailSlice_pos limit hpos] at hmain
    refine ⟨hmain.1, ?_⟩
    rw [hmain.2, List.filter_append,
        show ([NetOp.select mailbox true,
               NetOp.search criteria].filter isFetchOp) = [] from rfl,
        filter_isFetchOp_map, List.nil_append]

/-- C1 witness: three ascending identifiers, limit 2 — the last two
are fetched and the records come back newest-first. -/
theorem get_messages_bound_and_order_witness :
    (get_messages hdrNone envThreeMsgs sConnected "INBOX".toList "ALL".toList
        2 false).1 =
      Except.ok (((envThreeMsgs.searchIds.drop
          (envThreeMsgs.searchIds.length - (2 : Int).toNat)).filterMap
        (fun i => (envThreeMsgs.fetchResult i).map (recordOfRaw hdrNone))).reverse) ∧
    (get_messages hdrNone envThreeMsgs sConnected "INBOX".toList "ALL".toList
        2 false).2.filter isFetchOp =
      (envThreeMsgs.searchIds.drop
          (envThreeMsgs.searchIds.length - (2 : Int).toNat)).map
        (fun i => NetOp.fetch i
          (if false then FetchMode.rfc822 else FetchMode.bodyPeek)) :=
  (get_messages_bound_and_order hdrNone envThreeMsgs sConnected "INBOX".toList
      "ALL".toList 2 false (by decide)).2 0 rfl (by decide) rfl rfl

/-- C1 counterexample: with caller-supplied limit 0 (a permitted `int`)
and one identifier in the search result, the batch comes back with one
record — its length exceeds the limit, because the Python slice
`msg_ids[-0:]` is the whole identifier list, not the last zero. -/
theorem get_messages_limit_zero_violates_bound :
    (get_messages hdrNone envOneMsg sConnected "INBOX".toList "ALL".toList
        0 false).1 = Except.ok [recordOfRaw hdrNone msgHi] ∧
    ¬ ([recordOfRaw hdrNone msgHi].length ≤ (0 : Int).toNat) :=
  ⟨rfl, by decide⟩

theorem tryHosts_cons (env : ConnEnv) (host : Str) (rest : List Str)
    (s : Session) (last : Option ConnCause) :
    tryHosts env (host :: rest) s last =
      match env.outcome host with
      | HostOutcome.connFail e =>
        let s1 := { s with server := none }
        let r := tryHosts env rest s1 (some (ConnCause.exc e))
        ⟨r.final, r.success, r.lastError, s1 :: r.trace⟩
      | HostOutcome.loginRaise e =>
        let hid := s.handles.length
        let s1 := { s with server := some hid, handles := s.handles ++ [(hid, true)] }
        let s2 := { s1 with server := none }
        let r := tryHosts env rest s2 (some (ConnCause.exc e))
        ⟨r.final, r.success, r.lastError, s1 :: s2 :: r.trace⟩
      | HostOutcome.loginNotOK =>
        let hid := s.handles.length
        let s1 := { s with server := some hid, handles := s.handles ++ [(hid, true)] }
        let s2 := { s1 with handles := setLive s1.handles hid (env.logoutFails host) }
        let s3 := { s2 with server := none }
        let r := tryHosts env rest s3 (some (ConnCause.authFail host))
        ⟨r.final, r.success, r.lastError, s1 :: s2 :: s3 :: r.trace⟩
      | HostOutcome.loginOK =>
        let hid := s.handles.length
        let s1 := { s with server := some hid, handles := s.handles ++ [(hid, true)],
                           connected_host := some host }
        ⟨s1, some host, last, [s1]⟩ := rfl

theorem tryHosts_exhausted (env : ConnEnv) :
    ∀ (hosts : List Str) (s : Session) (last : Option ConnCause),
      hosts ≠ [] → (∀ h ∈ hosts, env.outcome h ≠ HostOutcome.loginOK) →
      (tryHosts env hosts s last).success = none ∧
      (tryHosts env hosts s last).lastError =
        causeOf (hosts.getLastD []) (env.outcome (hosts.getLastD [])) := by
  intro hosts
  induction hosts with
  | nil => intro s last hne _; exact absurd rfl hne
  | cons host rest ih =>
    intro s last _ hfail
    have hh : env.outcome host ≠ HostOutcome.loginOK :=
      hfail host (List.mem_cons_self _ _)
    cases rest with
    | nil =>
      cases ho : env.outcome host with
      | connFail e => simp [tryHosts, ho, causeOf]
      | loginRaise e => simp [tryHosts, ho, causeOf]
      | loginNotOK => simp [tryHosts, ho, causeOf]
      | loginOK => exact absurd ho hh
    | cons h2 rs =>
      have hne2 : (h2 :: rs) ≠ ([] : List Str) := by simp
      have hfail2 : ∀ h ∈ h2 :: rs, env.outcome h ≠ HostOutcome.loginOK :=
        fun h hm => hfail h (List.mem_cons_of_mem _ hm)
      have hlast : ((host :: h2 :: rs).getLastD ([] : Str)) = ((h2 :: rs).getLastD []) := by
        rw [List.getLastD_eq_getLast?, List.getLastD_eq_getLast?,
            List.getLast?_cons_cons]
      cases ho : env.outcome host with
      | connFail e =>
        rw [hlast, tryHosts_cons, ho]
        exact ih { s with server := none } (some (ConnCause.exc e)) hne2 hfail2
      | loginRaise e =>
        rw [hlast, tryHosts_cons, ho]
        exact ih
          { s with server := none,
                   handles := s.handles ++ [(s.handles.length, true)] }
          (some (ConnCause.exc e)) hne2 hfail2
      | loginNotOK =>
        rw [hlast, tryHosts_cons, ho]
        exact ih
          { s with server := none,
                   handles := setLive (s.handles ++ [(s.handles.length, true)])
                     s.handles.length (env.logoutFails host) }
          (some (ConnCause.authFail host)) hne2 hfail2
      | loginOK => exact absurd ho hh

/-- C5: when every candidate host fails to produce both a connection
and an accepted login, `connect` fails with the authentication error
that enumerates the full candidate list and carries the most recent
underlying cause (the last candidate's connection exception or
authentication failure); and every error `connect` can ever produce is
of that shape — per-candidate transport errors are never surfaced
directly. -/
theorem connect_exhaustion_error (servers : ServerMap) (env env2 : ConnEnv)
    (s s2 : Session)
    (hfail : ∀ h ∈ candidate_hosts servers s.email,
      env.outcome h ≠ HostOutcome.loginOK) :
    ((connect servers env s).2.1 = Except.error
      (MailError.authExhausted s.email (candidate_hosts servers s.email)
        (causeOf ((candidate_hosts servers s.email).getLastD [])
          (env.outcome ((candidate_hosts servers s.email).getLastD []))))) ∧
    (∀ err, (connect servers env2 s2).2.1 = Except.error err →
      ∃ tried lastE, err = MailError.authExhausted s2.email tried lastE) := by
  constructor
  · have hex := tryHosts_exhausted env (candidate_hosts servers s.email) s none
      (candidate_hosts_ne_nil servers s.email) hfail
    simp only [connect]
    rw [hex.1, hex.2]
  · cases hsucc : (tryHosts env2 (candidate_hosts servers s2.email) s2 none).success with
    | some host =>
      intro err herr
      simp only [connect] at herr
      rw [hsucc] at herr
      simp at herr
    | none =>
      intro err herr
      simp only [connect] at herr
      rw [hsucc] at herr
      simp at herr
      exact ⟨_, _, herr.symm⟩

/-- C5 witness: both default candidates reject the login; the error
enumerates both and carries the second candidate's cause. -/
theorem connect_exhaustion_error_witness :
    (connect srvNone cenvNotOK (mkSession "a@b.c".toList "pw".toList)).2.1 =
      Except.error (MailError.authExhausted "a@b.c".toList
        (candidate_hosts srvNone "a@b.c".toList)
        (causeOf ((candidate_hosts srvNone "a@b.c".toList).getLastD [])
          (cenvNotOK.outcome
            ((candidate_hosts srvNone "a@b.c".toList).getLastD [])))) :=
  (connect_exhaustion_error srvNone cenvNotOK cenvNotOK
    (mkSession "a@b.c".toList "pw".toList) (mkSession "a@b.c".toList "pw".toList)
    (by decide)).1

theorem setLive_map_fst (hs : List (Nat × Bool)) (hid : Nat) (b : Bool) :
    (setLive hs hid b).map Prod.fst = hs.map Prod.fst := by
  induction hs with
  | nil => rfl
  | cons a l ih =>
    simp only [setLive, List.map_cons] at ih ⊢
    by_cases h : a.1 = hid <;> simp [h, ih]

theorem setLive_length (hs : List (Nat × Bool)) (hid : Nat) (b : Bool) :
    (setLive hs hid b).length = hs.length := by
  simp [setLive]

theorem HandlesInv_setLive (hs : List (Nat × Bool)) (hid : Nat) (b : Bool)
    (h : HandlesInv hs) : HandlesInv (setLive hs hid b) := by
  obtain ⟨h1, h2⟩ := h
  constructor
  · intro k hk
    rw [setLive_map_fst] at hk
    rw [setLive_length]
    exact h1 k hk
  · rw [setLive_map_fst]
    exact h2

theorem HandlesInv_append (hs : List (Nat × Bool)) (b : Bool)
    (h : HandlesInv hs) : HandlesInv (hs ++ [(hs.length, b)]) := by
  obtain ⟨h1, h2⟩ := h
  constructor
  · intro k hk
    rw [List.map_append] at hk
    simp only [List.length_append, List.length_singleton]
    rcases List.mem_append.mp hk with hk1 | hk1
    · exact Nat.lt_succ_of_lt (h1 k hk1)
    · simp at hk1
      omega
  · rw [List.map_append]
    simp only [List.map_cons, List.map_nil]
    rw [List.nodup_append]
    refine ⟨h2, List.nodup_singleton _, ?_⟩
    intro a ha hb
    simp at hb
    subst hb
    exact absurd (h1 _ ha) (lt_irrefl _)

theorem liveBound_le_one (s : Session)
    (hnd : (s.handles.map Prod.fst).Nodup) :
    (liveBoundHandles s).length ≤ 1 := by
  unfold liveBoundHandles
  cases hs : s.server with
  | none => simp [hs]
  | some k =>
    have hall : ∀ x ∈ s.handles.filter (fun h => h.2 && (some k == some h.1)),
        x.1 = k := by
      intro x hx
      have hcond := List.of_mem_filter hx
      simp at hcond
      exact hcond.2.symm
    have hsubnd : ((s.handles.filter
        (fun h => h.2 && (some k == some h.1))).map Prod.fst).Nodup :=
      List.Nodup.sublist (List.Sublist.map Prod.fst (List.filter_sublist _)) hnd
    rcases hfil : s.handles.filter (fun h => h.2 && (some k == some h.1)) with
      _ | ⟨x, _ | ⟨y, t2⟩⟩
    · rw [hfil]
      simp
    · rw [hfil]
      simp
    · exfalso
      have hx : x.1 = k := hall x (by rw [hfil]; exact List.mem_cons_self _ _)
      have hy : y.1 = k := hall y (by
        rw [hfil]
        exact List.mem_cons_of_mem _ (List.mem_cons_self _ _))
      rw [hfil] at hsubnd
      simp only [List.map_cons, List.nodup_cons, List.mem_cons] at hsubnd
      exact hsubnd.1 (Or.inl (hx.trans hy.symm))

theorem tryHosts_inv (env : ConnEnv) :
    ∀ (hosts : List Str) (s : Session) (last : Option ConnCause),
      HandlesInv s.handles →
      HandlesInv (tryHosts env hosts s last).final.handles ∧
      ∀ st ∈ (tryHosts env hosts s last).trace, HandlesInv st.handles := by
  intro hosts
  induction hosts with
  | nil =>
    intro s last hInv
    exact ⟨hInv, by intro st hst; simp [tryHosts] at hst⟩
  | cons host rest ih =>
    intro s last hInv
    cases ho : env.outcome host with
    | connFail e =>
      rw [tryHosts_cons, ho]
      refine ⟨(ih { s with server := none } (some (ConnCause.exc e)) hInv).1, ?_⟩
      intro st hst
      rcases List.mem_cons.mp hst with rfl | hst2
      · exact hInv
      · exact (ih { s with server := none } (some (ConnCause.exc e)) hInv).2 st hst2
    | loginRaise e =>
      rw [tryHosts_cons, ho]
      have hInv1 : HandlesInv (s.handles ++ [(s.handles.length, true)]) :=
        HandlesInv_append s.handles true hInv
      refine ⟨(ih { s with server := none, handles := s.handles ++ [(s.handles.length, true)] }
          (some (ConnCause.exc e)) hInv1).1, ?_⟩
      intro st hst
      rcases List.mem_cons.mp hst with rfl | hst2
      · exact hInv1
      rcases List.mem_cons.mp hst2 with rfl | hst3
      · exact hInv1
      · exact (ih { s with server := none, handles := s.handles ++ [(s.handles.length, true)] }
            (some (ConnCause.exc e)) hInv1).2 st hst3
    | loginNotOK =>
      rw [tryHosts_cons, ho]
      have hInv1 : HandlesInv (s.handles ++ [(s.handles.length, true)]) :=
        HandlesInv_append s.handles true hInv
      have hInv2 : HandlesInv (setLive (s.handles ++ [(s.handles.length, true)])
          s.handles.length (env.logoutFails host)) :=
        HandlesInv_setLive _ _ _ hInv1
      refine ⟨(ih { s with server := none, handles := setLive (s.handles ++ [(s.handles.length, true)]) s.handles.length (env.logoutFails host) }
          (some (ConnCause.authFail host)) hInv2).1, ?_⟩
      intro st hst
      rcases List.mem_cons.mp hst with rfl | hst2
      · exact hInv1
      rcases List.mem_cons.mp hst2 with rfl | hst3
      · exact hInv2
      rcases List.mem_cons.mp hst3 with rfl | hst4
      · exact hInv2
      · exact (ih { s with server := none, handles := setLive (s.handles ++ [(s.handles.length, true)]) s.handles.length (env.logoutFails host) }
            (some (ConnCause.authFail host)) hInv2).2 st hst4
    | loginOK =>
      rw [tryHosts_cons, ho]
      have hInv1 : HandlesInv (s.handles ++ [(s.handles.length, true)]) :=
        HandlesInv_append s.handles true hInv
      refine ⟨hInv1, ?_⟩
      intro st hst
      rcases List.mem_cons.mp hst with rfl | hst2
      · exact hInv1
      · simp at hst2

theorem connect_final_trace (servers : ServerMap) (env : ConnEnv) (s : Session) :
    (connect servers env s).1 =
      (tryHosts env (candidate_hosts servers s.email) s none).final ∧
    (connect servers env s).2.2 =
      (tryHosts env (candidate_hosts servers s.email) s none).trace := by
  simp only [connect]
  cases hsucc : (tryHosts env (candidate_hosts servers s.email) s none).success <;>
    exact ⟨rfl, rfl⟩

/-- C6: at every intermediate point during `connect` and at its end,
the session binds at most one live transport handle, across any
sequence of per-candidate connection failures, login rejections and
final success or exhaustion. -/
theorem connect_single_live_bound_handle (servers : ServerMap) (env : ConnEnv)
    (s : Session) (hInv : HandlesInv s.handles) :
    (liveBoundHandles (connect servers env s).1).length ≤ 1 ∧
    ∀ st ∈ (connect servers env s).2.2, (liveBoundHandles st).length ≤ 1 := by
  have h := tryHosts_inv env (candidate_hosts servers s.email) s none hInv
  have hft := connect_final_trace servers env s
  constructor
  · rw [hft.1]
    exact liveBound_le_one _ h.1.2
  · intro st hst
    rw [hft.2] at hst
    exact liveBound_le_one st (h.2 st hst).2

/-- C6 witness: a fresh session run against an environment where both
default candidates reject the login. -/
theorem connect_single_live_bound_handle_witness :
    (liveBoundHandles
        (connect srvNone cenvNotOK (mkSession "a@b.c".toList "pw".toList)).1).length
      ≤ 1 ∧
    ∀ st ∈ (connect srvNone cenvNotOK (mkSession "a@b.c".toList "pw".toList)).2.2,
      (liveBoundHandles st).length ≤ 1 :=
  connect_single_live_bound_handle srvNone cenvNotOK
    (mkSession "a@b.c".toList "pw".toList) (by decide)

theorem tryHosts_outcome_indep (env : ConnEnv) :
    ∀ (hosts : List Str) (s s2 : Session) (last : Option ConnCause),
      (tryHosts env hosts s last).success = (tryHosts env hosts s2 last).success ∧
      (tryHosts env hosts s last).lastError =
        (tryHosts env hosts s2 last).lastError := by
  intro hosts
  induction hosts with
  | nil => intro s s2 last; exact ⟨rfl, rfl⟩
  | cons host rest ih =>
    intro s s2 last
    cases ho : env.outcome host with
    | connFail e =>
      rw [tryHosts_cons, tryHosts_cons, ho]
      exact ih _ _ _
    | loginRaise e =>
      rw [tryHosts_cons, tryHosts_cons, ho]
      exact ih _ _ _
    | loginNotOK =>
      rw [tryHosts_cons, tryHosts_cons, ho]
      exact ih _ _ _
    | loginOK =>
      rw [tryHosts_cons, tryHosts_cons, ho]
      exact ⟨rfl, rfl⟩

/-- C9 (amended): `disconnect` never raises (it is a total state
transformer absorbing any logout failure); afterwards no transport
handle is bound, and whenever a handle was bound both it and the host
binding are cleared.  When no handle was bound `disconnect` leaves the
session unchanged — a stale host binding left by a failed reconnect is
not cleared — but in every case a subsequent `connect` yields the same
outcome as on a freshly constructed instance. -/
theorem disconnect_teardown (denv : DiscEnv) (s : Session) (servers : ServerMap)
    (cenv : ConnEnv) (hid : Nat) :
    (disconnect denv s).server = none ∧
    (s.server = some hid → (disconnect denv s).connected_host = none) ∧
    (s.server = none → disconnect denv s = s) ∧
    (connect servers cenv (disconnect denv s)).2.1 =
      (connect servers cenv (mkSession s.email s.password)).2.1 := by
  have hemail : (disconnect denv s).email = s.email := by
    cases hs : s.server <;> simp [disconnect, hs]
  refine ⟨?_, fun h => ?_, fun h => ?_, ?_⟩
  · cases hs : s.server <;> simp [disconnect, hs]
  · simp [disconnect, h]
  · simp [disconnect, h]
  · have hmk : (mkSession s.email s.password).email = s.email := rfl
    simp only [connect, hmk, hemail]
    have hind := tryHosts_outcome_indep cenv (candidate_hosts servers s.email)
      (disconnect denv s) (mkSession s.email s.password) none
    rw [hind.1, hind.2]
    cases hsucc : (tryHosts cenv (candidate_hosts servers s.email)
        (mkSession s.email s.password) none).success with
    | none => rfl
    | some host => rfl

/-- C9 witness: teardown of an established session clears both fields,
double disconnect on a fresh instance is the identity, and reconnecting
after teardown behaves as on a fresh instance. -/
theorem disconnect_teardown_witness :
    (disconnect discOK sConnected).server = none ∧
    (disconnect discOK sConnected).connected_host = none ∧
    disconnect discOK (mkSession "x".toList "y".toList) =
      mkSession "x".toList "y".toList ∧
    (connect srvNone cenvNotOK (disconnect discOK sConnected)).2.1 =
      (connect srvNone cenvNotOK
        (mkSession sConnected.email sConnected.password)).2.1 :=
  ⟨(disconnect_teardown discOK sConnected srvNone cenvNotOK 0).1,
   (disconnect_teardown discOK sConnected srvNone cenvNotOK 0).2.1 rfl,
   (disconnect_teardown discOK (mkSession "x".toList "y".toList) srvNone
      cenvNotOK 0).2.2.1 rfl,
   (disconnect_teardown discOK sConnected srvNone cenvNotOK 0).2.2.2⟩

/-- C9 counterexample: after a successful `connect`, a second `connect`
in which every candidate's connection attempt fails leaves
`server = None` but keeps the old `_connected_host`; `disconnect` then
takes the no-handle branch and returns with the host binding still set,
refuting "the local session-bound state (host binding and transport
handle) is always cleared". -/
theorem disconnect_stale_host_binding :
    cexS2.server = none ∧
    cexS2.connected_host = some "imap.firstmail.ltd".toList ∧
    (disconnect discOK cexS2).connected_host =
      some "imap.firstmail.ltd".toList := by
  decide

end WebMail
